import Mathlib

/-!
Verification of the statistical core (`MathEngine`) of `src/dados.py` against its
specification.  The Python routines are shallowly embedded over `List ℚ`
(pandas/numpy float arithmetic is modelled exactly over the rationals; the
square root needed for standard deviations lives in `ℝ`).  Aggregations that
produce a non-finite float in Python (`NaN` from empty/short series, division of
a standard deviation by an exactly-zero denominator, `np.gradient` on fewer than
two points, pandas window validation errors) are modelled with `Option`.
-/

/-- Arithmetic mean of a list of rationals, as computed by pandas's
`Series.mean` (`sum / length`).  The empty case, where pandas yields `NaN`, is
only ever used under a nonemptiness hypothesis. -/
def media (s : List ℚ) : ℚ := s.sum / s.length

/-- Sum of squared deviations from the mean. -/
def somaQuadDesvios (s : List ℚ) : ℚ := (s.map fun x => (x - media s) ^ 2).sum

/-- Sample variance with `ddof = 1`, the square of pandas's default
`Series.std`.  Meaningful for lists of length at least 2; pandas yields `NaN`
below that, and theorems carry the corresponding length hypothesis. -/
def varAmostral (s : List ℚ) : ℚ := somaQuadDesvios s / ((s.length : ℚ) - 1)

/-- Core of `MathEngine.aplicar_suavizamento`, i.e.
`df[col].rolling(window=w, center=False, min_periods=1).mean()`: entry `i` is
the mean of the trailing window `s[i+1-w .. i]`, clipped at the start and
containing at least one element. -/
def suavizar (s : List ℚ) (w : ℕ) : List ℚ :=
  (List.range s.length).map fun i => media ((s.take (i + 1)).drop (i + 1 - w))

/-- Embedding of `MathEngine.aplicar_suavizamento` including the window
validation performed by `pandas.rolling` before any computation: a window
`w < 1` raises `ValueError` (for `w = 0` because `min_periods = 1` exceeds the
window, for negative `w` because the window must be nonnegative), modelled as
`none`. -/
def aplicar_suavizamento (s : List ℚ) (w : ℤ) : Option (List ℚ) :=
  if w < 1 then none else some (suavizar s w.toNat)

/-- Embedding of `MathEngine.calcular_canal_endemico`:
`serie.mean() + 1.96 * serie.std()` with the pandas sample standard deviation
(`ddof = 1`). -/
noncomputable def calcular_canal_endemico (s : List ℚ) : ℝ :=
  (media s : ℝ) + 196 / 100 * Real.sqrt (varAmostral s)

/-- Embedding of the pipeline step `df_proc['limiar'] = limiar_alerta`: the
scalar threshold is broadcast to every date of the frame. -/
noncomputable def limiarSeries (s : List ℚ) : List ℝ :=
  List.replicate s.length (calcular_canal_endemico s)

/-- Embedding of `np.gradient` with unit spacing: one-sided differences at the
two boundaries, central differences in the interior. -/
def npGradient (s : List ℚ) : List ℚ :=
  (List.range s.length).map fun i =>
    if i = 0 then s.getD 1 0 - s.getD 0 0
    else if i = s.length - 1 then s.getD (s.length - 1) 0 - s.getD (s.length - 2) 0
    else (s.getD (i + 1) 0 - s.getD (i - 1) 0) / 2

/-- Embedding of `MathEngine.calcular_derivadas`: velocity and acceleration via
`np.gradient`; `np.gradient` raises on inputs of length `< 2`, modelled as
`none`. -/
def calcular_derivadas (s : List ℚ) : Option (List ℚ × List ℚ) :=
  if s.length < 2 then none else some (npGradient s, npGradient (npGradient s))

/-- Embedding of `MathEngine.calcular_vero_index`:
`val_clinico / (val_ruido + 0.1)`. -/
def calcular_vero_index (valClinico valRuido : ℚ) : ℚ :=
  valClinico / (valRuido + 1 / 10)

/-- Embedding of `MathEngine.calcular_asi`: `0` when the mean is exactly `0`,
otherwise the coefficient of variation `serie.std() / (serie.mean() + 0.01)`.
`none` models the cases where Python produces a non-finite float instead of a
number: empty input (mean is `NaN`), length `1` with nonzero mean (sample std is
`NaN`), and a mean of exactly `-0.01` (division by a float zero). -/
noncomputable def calcular_asi (s : List ℚ) : Option ℝ :=
  if s.isEmpty then none
  else if media s = 0 then some 0
  else if s.length < 2 then none
  else if media s + 1 / 100 = 0 then none
  else some (Real.sqrt (varAmostral s) / ((media s : ℝ) + 1 / 100))

/-- The three outcomes of the dashboard's diagnostic decision tree. -/
inductive Classificacao
  | surtoConfirmado
  | anomaliaInformacional
  | situacaoEndemica
deriving DecidableEq

/-- Embedding of the decision tree of the dashboard: `val_atual > val_limiar`
first, then `vero_index > 0.8 and corr_farmacia > 0.5`. -/
noncomputable def classificar (valAtual valLimiar veroIndex corrFarmacia : ℝ) :
    Classificacao :=
  if valLimiar < valAtual then
    if 8 / 10 < veroIndex ∧ 1 / 2 < corrFarmacia then Classificacao.surtoConfirmado
    else Classificacao.anomaliaInformacional
  else Classificacao.situacaoEndemica

/-- Reference definition following the spec's words (§4.2): median of a list of
rationals, averaging the two middle elements for even lengths. -/
def mediana (l : List ℚ) : ℚ :=
  let ord := List.insertionSort (· ≤ ·) l
  if l.length % 2 = 1 then ord.getD (l.length / 2) 0
  else (ord.getD (l.length / 2 - 1) 0 + ord.getD (l.length / 2) 0) / 2

/-- Reference definition following the spec's words (§4.2): the trailing window
of one-day-shifted values of length `2w` ending at date `i - 1`, i.e. the raw
values `s[i-1-2w .. i-2]`, clipped at the start. -/
def specJanela (s : List ℚ) (w i : ℕ) : List ℚ :=
  (s.take (i - 1)).drop (i - 1 - 2 * w)

/-- Reference definition following the spec's words (§4.2): the claimed robust
threshold `median(window) + 3 * 1.4826 * mad(window)`; `none` at `i = 0`, where
no shifted history exists. -/
def specLimiar (s : List ℚ) (w i : ℕ) : Option ℚ :=
  if i = 0 then none
  else
    let j := specJanela s w i
    some (mediana j + 3 * (14826 / 10000) * mediana (j.map fun x => |x - mediana j|))

/-- Reference definition following the spec's words (§4.6): the claimed
sincerity index `clinical / (0.5 * news + 0.5 * control + eps)`. -/
def specVero (clinico ruido controle eps : ℚ) : ℚ :=
  clinico / (5 / 10 * ruido + 5 / 10 * controle + eps)

/-- Sums over a mapped range agree with `Finset` sums. -/
theorem sum_map_range (n : ℕ) (f : ℕ → ℚ) :
    ((List.range n).map f).sum = ∑ i ∈ Finset.range n, f i := by
  induction n with
  | zero => simp
  | succ n ih => rw [List.sum_range_succ, Finset.sum_range_succ, ih]

/-- A rational list sum written as a `Finset` sum of its entries. -/
theorem sum_eq_sum_getD (l : List ℚ) :
    l.sum = ∑ i ∈ Finset.range l.length, l.getD i 0 := by
  induction l with
  | nil => simp
  | cons a t ih =>
    rw [List.sum_cons, List.length_cons, Finset.sum_range_succ']
    simp only [List.getD_cons_succ, List.getD_cons_zero]
    rw [ih]
    ring

/-- A mapped rational list sum written as a `Finset` sum of its entries. -/
theorem map_sum_eq_sum_getD (l : List ℚ) (f : ℚ → ℚ) :
    (l.map f).sum = ∑ i ∈ Finset.range l.length, f (l.getD i 0) := by
  induction l with
  | nil => simp
  | cons a t ih =>
    rw [List.map_cons, List.sum_cons, List.length_cons, Finset.sum_range_succ']
    simp only [List.getD_cons_succ, List.getD_cons_zero]
    rw [ih]
    ring

/-- Entries of a contiguous slice of a list. -/
theorem slice_getD (s : List ℚ) (lo hi j : ℕ) (hh : hi ≤ s.length)
    (hj : j < hi - lo) :
    ((s.take hi).drop lo).getD j 0 = s.getD (lo + j) 0 := by
  have hlen : ((s.take hi).drop lo).length = hi - lo := by
    simp [List.length_drop, List.length_take, Nat.min_eq_left hh]
  have h1 : j < ((s.take hi).drop lo).length := by rw [hlen]; exact hj
  have h2 : lo + j < s.length := by omega
  have h3 : lo + j < (s.take hi).length := by
    rw [List.length_take]; exact lt_min (by omega) h2
  rw [List.getD_eq_getElem _ _ h1, List.getD_eq_getElem _ _ h2]
  rw [List.getElem_drop, List.getElem_take]

/-- Sum of a contiguous slice of a list, as a `Finset` sum over its indices. -/
theorem slice_sum (s : List ℚ) (lo hi : ℕ) (h : hi ≤ s.length) :
    ((s.take hi).drop lo).sum = ∑ j ∈ Finset.Ico lo hi, s.getD j 0 := by
  rw [sum_eq_sum_getD]
  have hlen : ((s.take hi).drop lo).length = hi - lo := by
    simp [List.length_drop, List.length_take, Nat.min_eq_left h]
  rw [hlen, Finset.sum_Ico_eq_sum_range]
  refine Finset.sum_congr rfl ?_
  intro j hj
  rw [Finset.mem_range] at hj
  rw [slice_getD s lo hi j h hj]
/-- Helper: entries of `suavizar`. -/
theorem suavizar_getD (s : List ℚ) (w : ℕ) (i : ℕ) (hi : i < s.length) :
    (suavizar s w).getD i 0 = media ((s.take (i + 1)).drop (i + 1 - w)) := by
  have hlen : (suavizar s w).length = s.length := by
    simp [suavizar]
  have h1 : i < (suavizar s w).length := by rw [hlen]; exact hi
  rw [List.getD_eq_getElem _ _ h1]
  unfold suavizar
  rw [List.getElem_map, List.getElem_range]

/-- Helper: length of `suavizar`. -/
theorem suavizar_length (s : List ℚ) (w : ℕ) : (suavizar s w).length = s.length := by
  simp [suavizar]

/-- Helper: window 1 leaves the series unchanged. -/
theorem suavizar_one (s : List ℚ) : suavizar s 1 = s := by
  apply List.ext_getElem
  · exact suavizar_length s 1
  · intro i h1 h2
    have hg : (suavizar s 1).getD i 0 = media ((s.take (i + 1)).drop (i + 1 - 1)) :=
      suavizar_getD s 1 i h2
    rw [List.getD_eq_getElem _ _ h1] at hg
    rw [hg]
    have hwin : (s.take (i + 1)).drop (i + 1 - 1) = [s[i]] := by
      apply List.ext_getElem
      · simp [List.length_drop, List.length_take, Nat.min_eq_left (by omega : i + 1 ≤ s.length)]
      · intro j hj1 hj2
        have hj : j = 0 := by
          have : ((s.take (i + 1)).drop (i + 1 - 1)).length = 1 := by
            simp [List.length_drop, List.length_take,
              Nat.min_eq_left (by omega : i + 1 ≤ s.length)]
          omega
        subst hj
        have := slice_getD s (i + 1 - 1) (i + 1) 0 (by omega) (by omega)
        rw [List.getD_eq_getElem _ _ hj1, List.getD_eq_getElem _ _ (by omega : i + 1 - 1 + 0 < s.length)] at this
        simp only [List.getElem_cons_zero]
        rw [this]
        simp only [Nat.add_sub_cancel, Nat.add_zero]
    rw [hwin]
    simp [media]

/-- C4 (confirmed): for every window `w ≥ 1` the smoothing succeeds, the result
has the input's length, entry `i` is the arithmetic mean of the trailing window
over indices `[max 0 (i+1-w), i]`, and window `1` returns the series exactly. -/
theorem suavizamento_media_retrospectiva (s : List ℚ) (w : ℤ) (hw : 1 ≤ w) :
    ∃ r, aplicar_suavizamento s w = some r ∧ r.length = s.length ∧
      (∀ i, i < s.length →
        r.getD i 0 =
          (∑ j ∈ Finset.Icc (i + 1 - w.toNat) i, s.getD j 0) / ((min (i + 1) w.toNat : ℕ) : ℚ)) ∧
      aplicar_suavizamento s 1 = some s := by
  refine ⟨suavizar s w.toNat, ?_, suavizar_length s w.toNat, ?_, ?_⟩
  · unfold aplicar_suavizamento
    rw [if_neg (not_lt.mpr hw)]
  · intro i hi
    rw [suavizar_getD s w.toNat i hi]
    unfold media
    have hslice := slice_sum s (i + 1 - w.toNat) (i + 1) (by omega)
    have hIcc : Finset.Ico (i + 1 - w.toNat) (i + 1) = Finset.Icc (i + 1 - w.toNat) i := by
      rw [Nat.Ico_succ_right]
    rw [hIcc] at hslice
    rw [hslice]
    have hlen : ((s.take (i + 1)).drop (i + 1 - w.toNat)).length = min (i + 1) w.toNat := by
      simp [List.length_drop, List.length_take, Nat.min_eq_left (by omega : i + 1 ≤ s.length)]
      omega
    rw [hlen]
  · unfold aplicar_suavizamento
    rw [if_neg (by norm_num)]
    rw [show (1 : ℤ).toNat = 1 from rfl, suavizar_one]

/-- Witness for C4 at a concrete input. -/
theorem suavizamento_media_retrospectiva_witness :
    ∃ r, aplicar_suavizamento [4, 8, 6] 2 = some r ∧ r.length = ([4, 8, 6] : List ℚ).length ∧
      (∀ i, i < ([4, 8, 6] : List ℚ).length →
        r.getD i 0 =
          (∑ j ∈ Finset.Icc (i + 1 - (2 : ℤ).toNat) i, ([4, 8, 6] : List ℚ).getD j 0) /
            ((min (i + 1) (2 : ℤ).toNat : ℕ) : ℚ)) ∧
      aplicar_suavizamento [4, 8, 6] 1 = some [4, 8, 6] :=
  suavizamento_media_retrospectiva [4, 8, 6] 2 (by norm_num)

/-- C9 (confirmed): non-positive windows are rejected before any computation,
and windows `w ≥ 1` never fail. -/
theorem suavizamento_valida_janela (s : List ℚ) (w : ℤ) :
    (w < 1 → aplicar_suavizamento s w = none) ∧
    (1 ≤ w → (aplicar_suavizamento s w).isSome = true) := by
  constructor
  · intro h
    unfold aplicar_suavizamento
    rw [if_pos h]
  · intro h
    unfold aplicar_suavizamento
    rw [if_neg (not_lt.mpr h)]
    rfl

/-- Witness for C9 at concrete windows `0` and `7`. -/
theorem suavizamento_valida_janela_witness :
    aplicar_suavizamento [5, 3] 0 = none ∧
    (aplicar_suavizamento [5, 3] 7).isSome = true :=
  ⟨(suavizamento_valida_janela [5, 3] 0).1 (by norm_num),
   (suavizamento_valida_janela [5, 3] 7).2 (by norm_num)⟩

/-- C5 counterexample: no choice of epsilon makes the code's vero index agree
with the spec's 0.5/0.5 blend formula on all inputs — in particular the code's
value `clinical / (news + 0.1)` never consults the neutral-control value. -/
theorem vero_index_ignora_controle :
    calcular_vero_index 1 0 = 10 ∧
    ¬ ∃ eps : ℚ, ∀ c n ctrl : ℚ, calcular_vero_index c n = specVero c n ctrl eps := by
  constructor
  · norm_num [calcular_vero_index]
  · rintro ⟨eps, h⟩
    have h1 := h 1 0 0
    have h2 := h 1 0 2
    unfold calcular_vero_index specVero at h1 h2
    norm_num at h1 h2
    by_cases heps : eps = 0
    · rw [heps] at h1
      norm_num at h1
    · have he : eps = 1 / 10 := by
        field_simp at h1
        linarith
      rw [he] at h2
      norm_num at h2

/-- C5 amended: the sincerity index is the plain ratio `clinical / (news + 0.1)`
with epsilon `0.1` and no control term; multiplying back by the denominator
recovers the clinical value. -/
theorem vero_index_razao (c n : ℚ) (h : n + 1 / 10 ≠ 0) :
    calcular_vero_index c n * (n + 1 / 10) = c := by
  unfold calcular_vero_index
  exact div_mul_cancel₀ c h

/-- Witness for the amended C5 at a concrete input. -/
theorem vero_index_razao_witness :
    calcular_vero_index 3 0 * ((0 : ℚ) + 1 / 10) = 3 :=
  vero_index_razao 3 0 (by norm_num)

/-- Helper: the sum of squared deviations is nonnegative. -/
theorem somaQuadDesvios_nonneg (s : List ℚ) : 0 ≤ somaQuadDesvios s := by
  unfold somaQuadDesvios
  apply List.sum_nonneg
  intro x hx
  rw [List.mem_map] at hx
  obtain ⟨y, _, rfl⟩ := hx
  positivity

/-- Helper: the sample variance is nonnegative. -/
theorem varAmostral_nonneg (s : List ℚ) : 0 ≤ varAmostral s := by
  unfold varAmostral
  rcases Nat.eq_zero_or_pos s.length with h | h
  · simp [somaQuadDesvios, media, List.length_eq_zero.mp h]
  · apply div_nonneg (somaQuadDesvios_nonneg s)
    have : (1 : ℚ) ≤ (s.length : ℚ) := by exact_mod_cast h
    linarith

/-- C10 (confirmed): a mean of exactly zero short-circuits `calcular_asi` to
`0` even when the variance is nonzero; the `std / (mean + 0.01)` branch, which
would produce a nonzero value there, is never reached. -/
theorem asi_media_zero (s : List ℚ) (h0 : s ≠ []) (hm : media s = 0) :
    calcular_asi s = some 0 ∧
    (varAmostral s ≠ 0 →
      (0 : ℝ) ≠ Real.sqrt (varAmostral s) / ((media s : ℝ) + 1 / 100)) := by
  constructor
  · unfold calcular_asi
    rw [if_neg (by simpa [List.isEmpty_iff] using h0), if_pos hm]
  · intro hv
    have hvpos : (0 : ℚ) < varAmostral s := lt_of_le_of_ne (varAmostral_nonneg s) (Ne.symm hv)
    have hs : 0 < Real.sqrt (varAmostral s) := Real.sqrt_pos.mpr (by exact_mod_cast hvpos)
    have hd : (0 : ℝ) < (media s : ℝ) + 1 / 100 := by
      rw [hm]
      norm_num
    have : 0 < Real.sqrt (varAmostral s) / ((media s : ℝ) + 1 / 100) := div_pos hs hd
    exact ne_of_lt this

/-- Witness for C10: a series with zero mean but nonzero variance. -/
theorem asi_media_zero_witness :
    calcular_asi [-1, 1] = some 0 ∧
    (varAmostral [-1, 1] ≠ 0 →
      (0 : ℝ) ≠ Real.sqrt (varAmostral [-1, 1]) / ((media [-1, 1] : ℝ) + 1 / 100)) :=
  asi_media_zero [-1, 1] (by simp) (by norm_num [media])

/-- Helper: length of `npGradient`. -/
theorem npGradient_length (s : List ℚ) : (npGradient s).length = s.length := by
  simp [npGradient]

/-- Helper: entries of `npGradient`. -/
theorem npGradient_getD (s : List ℚ) (i : ℕ) (h : i < s.length) :
    (npGradient s).getD i 0 =
      if i = 0 then s.getD 1 0 - s.getD 0 0
      else if i = s.length - 1 then s.getD (s.length - 1) 0 - s.getD (s.length - 2) 0
      else (s.getD (i + 1) 0 - s.getD (i - 1) 0) / 2 := by
  have h1 : i < (npGradient s).length := by rw [npGradient_length]; exact h
  rw [List.getD_eq_getElem _ _ h1]
  unfold npGradient
  rw [List.getElem_map, List.getElem_range]

/-- C8 (confirmed): series of length at least 2 yield a velocity and an
acceleration of the input's length, the velocity being the central-difference
gradient with one-sided boundary differences and the acceleration the gradient
of the velocity; shorter series fail. -/
theorem derivadas_contrato (s : List ℚ) :
    (2 ≤ s.length → ∃ v a, calcular_derivadas s = some (v, a) ∧
      v = npGradient s ∧ a = npGradient v ∧
      v.length = s.length ∧ a.length = s.length ∧
      v.getD 0 0 = s.getD 1 0 - s.getD 0 0 ∧
      v.getD (s.length - 1) 0 = s.getD (s.length - 1) 0 - s.getD (s.length - 2) 0 ∧
      (∀ i, 0 < i → i < s.length - 1 →
        v.getD i 0 = (s.getD (i + 1) 0 - s.getD (i - 1) 0) / 2)) ∧
    (s.length < 2 → calcular_derivadas s = none) := by
  constructor
  · intro h2
    refine ⟨npGradient s, npGradient (npGradient s), ?_, rfl, rfl,
      npGradient_length s, by rw [npGradient_length, npGradient_length], ?_, ?_, ?_⟩
    · unfold calcular_derivadas
      rw [if_neg (not_lt.mpr h2)]
    · rw [npGradient_getD s 0 (by omega), if_pos rfl]
    · rw [npGradient_getD s (s.length - 1) (by omega)]
      rw [if_neg (by omega), if_pos rfl]
    · intro i hi0 hitop
      rw [npGradient_getD s i (by omega)]
      rw [if_neg (by omega), if_neg (by omega)]
  · intro h
    unfold calcular_derivadas
    rw [if_pos h]

/-- Witness for C8: a length-4 series succeeds with the expected entries, a
length-1 series fails. -/
theorem derivadas_contrato_witness :
    (∃ v a, calcular_derivadas [1, 4, 9, 16] = some (v, a) ∧
      v = npGradient [1, 4, 9, 16] ∧ a = npGradient v ∧
      v.length = ([1, 4, 9, 16] : List ℚ).length ∧
      a.length = ([1, 4, 9, 16] : List ℚ).length ∧
      v.getD 0 0 = ([1, 4, 9, 16] : List ℚ).getD 1 0 - ([1, 4, 9, 16] : List ℚ).getD 0 0 ∧
      v.getD (([1, 4, 9, 16] : List ℚ).length - 1) 0 =
        ([1, 4, 9, 16] : List ℚ).getD (([1, 4, 9, 16] : List ℚ).length - 1) 0 -
          ([1, 4, 9, 16] : List ℚ).getD (([1, 4, 9, 16] : List ℚ).length - 2) 0 ∧
      (∀ i, 0 < i → i < ([1, 4, 9, 16] : List ℚ).length - 1 →
        v.getD i 0 =
          (([1, 4, 9, 16] : List ℚ).getD (i + 1) 0 -
            ([1, 4, 9, 16] : List ℚ).getD (i - 1) 0) / 2)) ∧
    calcular_derivadas [7] = none :=
  ⟨(derivadas_contrato [1, 4, 9, 16]).1 (by norm_num),
   (derivadas_contrato [7]).2 (by norm_num)⟩

/-- Helper: every entry of the broadcast threshold column is the scalar
`calcular_canal_endemico`. -/
theorem limiarSeries_getD (s : List ℚ) (i : ℕ) (h : i < s.length) :
    (limiarSeries s).getD i 0 = calcular_canal_endemico s := by
  have h1 : i < (limiarSeries s).length := by
    simp [limiarSeries]
    exact h
  rw [List.getD_eq_getElem _ _ h1]
  unfold limiarSeries
  rw [List.getElem_replicate]

/-- C1 amended: the threshold at every date is the same scalar computed from
the whole series (mean plus 1.96 sample standard deviations), so it uses values
at and after the date rather than only values strictly before it. -/
theorem limiar_escalar_global (s : List ℚ) (i : ℕ) (h : i < s.length) :
    (limiarSeries s).getD i 0 = calcular_canal_endemico s :=
  limiarSeries_getD s i h

/-- Witness for the amended C1 at a concrete series and index. -/
theorem limiar_escalar_global_witness :
    (limiarSeries [1, 2]).getD 0 0 = calcular_canal_endemico [1, 2] :=
  limiar_escalar_global [1, 2] 0 (by norm_num)

/-- C1 counterexample: changing only the future value `S[2]` changes the
threshold at index `0`, so the threshold is not derived only from values
strictly before its date. -/
theorem limiar_depende_do_futuro :
    (limiarSeries [0, 0, 0]).getD 0 0 ≠ (limiarSeries [0, 0, 3]).getD 0 0 := by
  rw [limiarSeries_getD _ 0 (by norm_num), limiarSeries_getD _ 0 (by norm_num)]
  unfold calcular_canal_endemico
  have e1 : media ([0, 0, 0] : List ℚ) = 0 := by norm_num [media]
  have e2 : varAmostral ([0, 0, 0] : List ℚ) = 0 := by
    norm_num [varAmostral, somaQuadDesvios, media]
  have e3 : media ([0, 0, 3] : List ℚ) = 1 := by norm_num [media]
  have e4 : varAmostral ([0, 0, 3] : List ℚ) = 3 := by
    norm_num [varAmostral, somaQuadDesvios, media]
  rw [e1, e2, e3, e4]
  push_cast
  rw [Real.sqrt_zero]
  have h3 : 0 ≤ Real.sqrt 3 := Real.sqrt_nonneg 3
  intro heq
  nlinarith

/-- C2 counterexample: on `[0, 0, 0, 0, 100]` the spec's shifted median/MAD
formula yields threshold `0` at date `4`, while the code's threshold
(`mean + 1.96 std` of the whole series) is strictly positive there. -/
theorem limiar_nao_e_mediana_mad :
    specLimiar [0, 0, 0, 0, 100] 7 4 = some 0 ∧
    (limiarSeries [0, 0, 0, 0, 100]).getD 4 0 ≠ ((0 : ℚ) : ℝ) := by
  constructor
  · have hj : specJanela [0, 0, 0, 0, 100] 7 4 = [0, 0, 0] := by rfl
    have hmed : mediana ([0, 0, 0] : List ℚ) = 0 := by
      norm_num [mediana, List.insertionSort, List.orderedInsert]
    unfold specLimiar
    rw [if_neg (by norm_num), hj]
    simp only []
    rw [hmed]
    norm_num [hmed]
  · rw [limiarSeries_getD _ 4 (by norm_num)]
    unfold calcular_canal_endemico
    have e1 : media ([0, 0, 0, 0, 100] : List ℚ) = 20 := by norm_num [media]
    have e2 : varAmostral ([0, 0, 0, 0, 100] : List ℚ) = 2000 := by
      norm_num [varAmostral, somaQuadDesvios, media]
    rw [e1, e2]
    push_cast
    have h3 : 0 ≤ Real.sqrt 2000 := Real.sqrt_nonneg 2000
    intro heq
    nlinarith

/-- C2 amended: the code's threshold is the single scalar
`mean + 1.96 * sample std` of the whole series: it depends only on the multiset
of values (it is invariant under any permutation of the series), not on a
trailing window of shifted values. -/
theorem canal_endemico_permutacao (s t : List ℚ) (hp : s.Perm t) :
    calcular_canal_endemico s = calcular_canal_endemico t ∧
    calcular_canal_endemico s = (media s : ℝ) + 196 / 100 * Real.sqrt (varAmostral s) := by
  refine ⟨?_, rfl⟩
  have hm : media s = media t := by
    unfold media
    rw [hp.sum_eq, hp.length_eq]
  have hv : varAmostral s = varAmostral t := by
    unfold varAmostral somaQuadDesvios
    rw [hm, (hp.map fun x => (x - media t) ^ 2).sum_eq, hp.length_eq]
  unfold calcular_canal_endemico
  rw [hm, hv]

/-- Witness for the amended C2 at a concrete permutation. -/
theorem canal_endemico_permutacao_witness :
    calcular_canal_endemico [1, 2] = calcular_canal_endemico [2, 1] ∧
    calcular_canal_endemico [1, 2] =
      (media [1, 2] : ℝ) + 196 / 100 * Real.sqrt (varAmostral [1, 2]) :=
  canal_endemico_permutacao [1, 2] [2, 1] (List.Perm.swap 2 1 [])

/-- Helper: the mean of a nonempty constant series is its value. -/
theorem media_replicate (n : ℕ) (c : ℚ) (hn : 1 ≤ n) :
    media (List.replicate n c) = c := by
  unfold media
  rw [List.sum_replicate, List.length_replicate, nsmul_eq_mul]
  exact mul_div_cancel_left₀ c (Nat.cast_ne_zero.mpr (by omega))

/-- Helper: the sample variance of a constant series is zero. -/
theorem varAmostral_replicate (n : ℕ) (c : ℚ) (hn : 1 ≤ n) :
    varAmostral (List.replicate n c) = 0 := by
  unfold varAmostral somaQuadDesvios
  rw [media_replicate n c hn, List.map_replicate]
  simp

/-- Helper: smoothing a constant series returns it unchanged. -/
theorem suavizar_replicate (n : ℕ) (c : ℚ) (w : ℕ) (hw : 1 ≤ w) :
    suavizar (List.replicate n c) w = List.replicate n c := by
  apply List.ext_getElem
  · rw [suavizar_length]
  · intro i h1 h2
    rw [List.length_replicate] at h2
    have hg := suavizar_getD (List.replicate n c) w i (by rwa [List.length_replicate])
    rw [List.getD_eq_getElem _ _ h1] at hg
    rw [hg, List.take_replicate, List.drop_replicate, List.getElem_replicate]
    apply media_replicate
    omega

/-- Helper: the last entry of a nonempty constant series is its value. -/
theorem getLastD_replicate (n : ℕ) (c : ℚ) (hn : 1 ≤ n) :
    (List.replicate n c).getLastD 0 = c := by
  rw [List.getLastD_eq_getLast?, List.getLast?_eq_getElem?, List.length_replicate,
    List.getElem?_replicate, if_pos (by omega : n - 1 < n)]
  rfl

/-- Helper: the endemic-channel threshold of a constant series is its value. -/
theorem canal_endemico_replicate (n : ℕ) (c : ℚ) (hn : 1 ≤ n) :
    calcular_canal_endemico (List.replicate n c) = (c : ℝ) := by
  unfold calcular_canal_endemico
  rw [media_replicate n c hn, varAmostral_replicate n c hn]
  push_cast
  rw [Real.sqrt_zero]
  ring

/-- C7 (confirmed): on a constant series (sample standard deviation zero; the
hypothesis on `c` excludes only the value `-0.01`, impossible for the
`[0, 100]`-valued interest scale, where the float division `0.0 / 0.0` would
yield `NaN`) the pipeline's volatility index is `0`, every operation succeeds,
and the decision tree classifies the situation as endemic — never as a
confirmed anomaly — whatever the vero index and the pharmacy correlation. -/
theorem serie_constante_sem_alarme (c : ℚ) (n : ℕ) (hn : 2 ≤ n)
    (hc : c + 1 / 100 ≠ 0) :
    suavizar (List.replicate n c) 7 = List.replicate n c ∧
    calcular_asi (suavizar (List.replicate n c) 7) = some 0 ∧
    (∀ vero corrF : ℝ,
      classificar (((suavizar (List.replicate n c) 7).getLastD 0 : ℚ) : ℝ)
          (calcular_canal_endemico (suavizar (List.replicate n c) 7)) vero corrF =
        Classificacao.situacaoEndemica) := by
  have hs : suavizar (List.replicate n c) 7 = List.replicate n c :=
    suavizar_replicate n c 7 (by norm_num)
  refine ⟨hs, ?_, ?_⟩
  · rw [hs]
    unfold calcular_asi
    rw [if_neg (by simp [List.isEmpty_iff, List.replicate_eq_nil_iff]; omega)]
    by_cases hzero : media (List.replicate n c) = 0
    · rw [if_pos hzero]
    · rw [if_neg hzero, if_neg (by rw [List.length_replicate]; omega),
        if_neg (by rwa [media_replicate n c (by omega)]),
        varAmostral_replicate n c (by omega)]
      push_cast
      rw [Real.sqrt_zero, zero_div]
  · intro vero corrF
    rw [hs, getLastD_replicate n c (by omega), canal_endemico_replicate n c (by omega)]
    unfold classificar
    rw [if_neg (lt_irrefl _)]

/-- Witness for C7 at the constant series of five threes. -/
theorem serie_constante_sem_alarme_witness :
    suavizar (List.replicate 5 3) 7 = List.replicate 5 3 ∧
    calcular_asi (suavizar (List.replicate 5 3) 7) = some 0 ∧
    (∀ vero corrF : ℝ,
      classificar (((suavizar (List.replicate 5 3) 7).getLastD 0 : ℚ) : ℝ)
          (calcular_canal_endemico (suavizar (List.replicate 5 3) 7)) vero corrF =
        Classificacao.situacaoEndemica) :=
  serie_constante_sem_alarme 3 5 (by norm_num) (by norm_num)

/-- Overlapping pairs of the target with the predictor shifted forward by
`lag` days: `serie_preditora.shift(lag)` aligns `P[i - lag]` against `T[i]`,
and `Series.corr` keeps exactly the pairwise complete observations. -/
def pares (T P : List ℚ) (lag : ℕ) : List (ℚ × ℚ) :=
  (T.drop lag).zip P

/-- Scaled sum of squared deviations `n * Σx² - (Σx)²` of a list (the Pearson
denominator under the square root, up to the positive factor `n²`). -/
def ssq (l : List ℚ) : ℚ :=
  (l.length : ℚ) * (l.map fun x => x * x).sum - l.sum * l.sum

/-- Scaled cross-covariance `n * Σxy - Σx * Σy` of a list of pairs (the Pearson
numerator, up to the positive factor `n²`). -/
def sCross (ps : List (ℚ × ℚ)) : ℚ :=
  (ps.length : ℚ) * (ps.map fun p => p.1 * p.2).sum -
    (ps.map Prod.fst).sum * (ps.map Prod.snd).sum

/-- Rational summary of `serie_alvo.corr(serie_preditora.shift(lag))`: the pair
`(c, D)` with Pearson correlation `c / sqrt D`, where `c` is the scaled
covariance and `D` the product of the two scaled sums of squares; `none`
exactly where pandas yields `NaN` (fewer than two overlapping points, or a
constant side, i.e. a zero denominator). -/
def pearsonQ (T P : List ℚ) (lag : ℕ) : Option (ℚ × ℚ) :=
  if ssq ((pares T P lag).map Prod.fst) = 0 ∨ ssq ((pares T P lag).map Prod.snd) = 0 then
    none
  else
    some (sCross (pares T P lag),
      ssq ((pares T P lag).map Prod.fst) * ssq ((pares T P lag).map Prod.snd))

/-- State of the scanning loop of `calcular_lead_time_lag`: `best_lag` and
`best_corr`, the latter `none` while still at its initial float `-1`. -/
structure LagState where
  lag : ℕ
  corr : Option (ℚ × ℚ)
deriving DecidableEq

/-- The float comparison `corr > best_corr` of the source, decided exactly on
the rational Pearson summaries: against the initial `-1` it is
`c / sqrt D > -1`, i.e. `0 ≤ c` or `c² < D`; against a stored pair it is
`c / sqrt D > c' / sqrt D'`, i.e. `c'|c'| D < c|c| D'`. -/
def melhor (novo : ℚ × ℚ) : Option (ℚ × ℚ) → Bool
  | none => decide (0 ≤ novo.1) || decide (novo.1 ^ 2 < novo.2)
  | some b => decide (b.1 * |b.1| * novo.2 < novo.1 * |novo.1| * b.2)

/-- One iteration of the loop of `calcular_lead_time_lag`: a `NaN` correlation
compares false against any float and leaves the state unchanged; a strict
improvement replaces both the best lag and the best correlation. -/
def passo (T P : List ℚ) (st : LagState) (lag : ℕ) : LagState :=
  match pearsonQ T P lag with
  | none => st
  | some cd => if melhor cd st.corr then ⟨lag, some cd⟩ else st

/-- Embedding of `MathEngine.calcular_lead_time_lag`: scan the lags 1..14 with
`best_lag = 0`, `best_corr = -1`, keeping the first strict improvement. -/
def calcular_lead_time_lag (T P : List ℚ) : LagState :=
  (List.range' 1 14).foldl (passo T P) ⟨0, none⟩

/-- Real value of a running best correlation; `none` denotes the initial float
`-1` of the source. -/
noncomputable def rOf : Option (ℚ × ℚ) → ℝ
  | none => -1
  | some cd => (cd.1 : ℝ) / Real.sqrt (cd.2 : ℝ)

/-- The Pearson correlation coefficient, as a real number, of the target with
the predictor shifted forward by `lag` days; `none` where pandas yields
`NaN`. -/
noncomputable def corrReal (T P : List ℚ) (lag : ℕ) : Option ℝ :=
  (pearsonQ T P lag).map fun cd => (cd.1 : ℝ) / Real.sqrt (cd.2 : ℝ)

/-- Helper: the scaled sum of squared deviations is nonnegative
(Cauchy-Schwarz). -/
theorem ssq_nonneg (l : List ℚ) : 0 ≤ ssq l := by
  unfold ssq
  rw [map_sum_eq_sum_getD, sum_eq_sum_getD]
  have h := @sq_sum_le_card_mul_sum_sq ℕ ℚ _ _ (Finset.range l.length) (fun i => l.getD i 0)
  rw [Finset.card_range] at h
  have e1 : ∑ i ∈ Finset.range l.length, l.getD i 0 * l.getD i 0
      = ∑ i ∈ Finset.range l.length, (l.getD i 0) ^ 2 := by
    refine Finset.sum_congr rfl ?_
    intro i _
    ring
  rw [e1]
  nlinarith [h]

/-- Helper: a defined Pearson summary has a strictly positive denominator
square. -/
theorem pearsonQ_pos {T P : List ℚ} {lag : ℕ} {cd : ℚ × ℚ}
    (h : pearsonQ T P lag = some cd) : 0 < cd.2 := by
  unfold pearsonQ at h
  split_ifs at h with hc
  push_neg at hc
  obtain ⟨h1, h2⟩ := hc
  have he := Option.some.inj h
  subst he
  exact mul_pos (lt_of_le_of_ne (ssq_nonneg _) (Ne.symm h1))
    (lt_of_le_of_ne (ssq_nonneg _) (Ne.symm h2))

/-- Helper: the signed square `x * |x|` is strictly monotone. -/
theorem mul_abs_strictMono : StrictMono fun x : ℝ => x * |x| := by
  intro a b hab
  simp only []
  rcases le_or_lt 0 a with ha | ha
  · have hb : 0 < b := lt_of_le_of_lt ha hab
    rw [abs_of_nonneg ha, abs_of_pos hb]
    nlinarith
  · rcases le_or_lt 0 b with hb | hb
    · have h1 : a * |a| < 0 := by
        rw [abs_of_neg ha]
        nlinarith
      have h2 : 0 ≤ b * |b| := by
        rw [abs_of_nonneg hb]
        nlinarith
      linarith
    · rw [abs_of_neg ha, abs_of_neg hb]
      nlinarith

/-- Helper: the signed square of `x / sqrt D` for positive `D`. -/
theorem div_sqrt_mul_abs (x D : ℝ) (hD : 0 < D) :
    x / Real.sqrt D * |x / Real.sqrt D| = x * |x| / D := by
  have hs : 0 < Real.sqrt D := Real.sqrt_pos.mpr hD
  rw [abs_div, abs_of_pos hs]
  field_simp

/-- Helper: the loop's comparison against a stored best agrees with the real
comparison of the two correlations. -/
theorem melhor_some_iff (novo b : ℚ × ℚ) (hn : 0 < novo.2) (hb : 0 < b.2) :
    melhor novo (some b) = true ↔ rOf (some b) < rOf (some novo) := by
  unfold melhor rOf
  rw [decide_eq_true_eq]
  have hnR : (0 : ℝ) < (novo.2 : ℝ) := by exact_mod_cast hn
  have hbR : (0 : ℝ) < (b.2 : ℝ) := by exact_mod_cast hb
  constructor
  · intro h
    rw [← mul_abs_strictMono.lt_iff_lt, div_sqrt_mul_abs _ _ hbR, div_sqrt_mul_abs _ _ hnR,
      div_lt_div_iff₀ hbR hnR]
    exact_mod_cast h
  · intro h
    rw [← mul_abs_strictMono.lt_iff_lt, div_sqrt_mul_abs _ _ hbR, div_sqrt_mul_abs _ _ hnR,
      div_lt_div_iff₀ hbR hnR] at h
    exact_mod_cast h

/-- Helper: the loop's comparison against the initial `-1` agrees with the real
comparison of the correlation with `-1`. -/
theorem melhor_none_iff (novo : ℚ × ℚ) (hn : 0 < novo.2) :
    melhor novo none = true ↔ (-1 : ℝ) < rOf (some novo) := by
  unfold melhor rOf
  rw [Bool.or_eq_true, decide_eq_true_eq, decide_eq_true_eq]
  have hnR : (0 : ℝ) < (novo.2 : ℝ) := by exact_mod_cast hn
  have hs : 0 < Real.sqrt (novo.2 : ℝ) := Real.sqrt_pos.mpr hnR
  have hsq : Real.sqrt (novo.2 : ℝ) ^ 2 = (novo.2 : ℝ) := Real.sq_sqrt (le_of_lt hnR)
  have hdiv : ((-1 : ℝ) < (novo.1 : ℝ) / Real.sqrt (novo.2 : ℝ)) ↔
      -Real.sqrt (novo.2 : ℝ) < (novo.1 : ℝ) := by
    rw [lt_div_iff₀ hs, neg_one_mul]
  rw [hdiv]
  constructor
  · rintro (h | h)
    · have h0 : (0 : ℝ) ≤ (novo.1 : ℝ) := by exact_mod_cast h
      linarith
    · have hR : ((novo.1 : ℝ)) ^ 2 < (novo.2 : ℝ) := by exact_mod_cast h
      by_contra hcon
      push_neg at hcon
      nlinarith
  · intro h
    rcases le_or_lt 0 novo.1 with h0 | h0
    · exact Or.inl h0
    · refine Or.inr ?_
      have h0R : (novo.1 : ℝ) < 0 := by exact_mod_cast h0
      have hlt : ((novo.1 : ℝ)) ^ 2 < (novo.2 : ℝ) := by nlinarith
      exact_mod_cast hlt

/-- Invariant of the scanning loop after processing the lags in `vistos`:
either nothing ever compared above the initial `-1` and the state is still the
sentinel, or the state holds the smallest lag attaining the maximum of the
defined correlations seen so far, that maximum being above `-1`. -/
def InvLoop (T P : List ℚ) (vistos : List ℕ) (st : LagState) : Prop :=
  (st = ⟨0, none⟩ ∧
    ∀ k ∈ vistos, ∀ cd, pearsonQ T P k = some cd → rOf (some cd) ≤ -1) ∨
  (st.lag ∈ vistos ∧ ∃ cd, st.corr = some cd ∧ pearsonQ T P st.lag = some cd ∧
    (-1 : ℝ) < rOf (some cd) ∧
    (∀ k ∈ vistos, ∀ cd', pearsonQ T P k = some cd' → rOf (some cd') ≤ rOf (some cd)) ∧
    (∀ k ∈ vistos, k < st.lag → ∀ cd', pearsonQ T P k = some cd' →
      rOf (some cd') < rOf (some cd)))

/-- Helper: one loop iteration preserves the invariant, extending the set of
seen lags by a lag larger than all of them. -/
theorem passo_inv (T P : List ℚ) (vistos : List ℕ) (st : LagState) (k : ℕ)
    (hinv : InvLoop T P vistos st) (hgt : ∀ a ∈ vistos, a < k) :
    InvLoop T P (vistos ++ [k]) (passo T P st k) := by
  unfold passo
  rcases hpk : pearsonQ T P k with _ | cd
  · rcases hinv with ⟨hst, hall⟩ | ⟨hmem, cd', hcorr, hp, hr, hmax, hstrict⟩
    · refine Or.inl ⟨hst, ?_⟩
      intro j hj cd' hj'
      rcases List.mem_append.mp hj with h | h
      · exact hall j h cd' hj'
      · rw [List.mem_singleton.mp h] at hj'
        rw [hpk] at hj'
        cases hj'
    · refine Or.inr ⟨List.mem_append.mpr (Or.inl hmem), cd', hcorr, hp, hr, ?_, ?_⟩
      · intro j hj cd'' hj'
        rcases List.mem_append.mp hj with h | h
        · exact hmax j h cd'' hj'
        · rw [List.mem_singleton.mp h] at hj'
          rw [hpk] at hj'
          cases hj'
      · intro j hj hlt cd'' hj'
        rcases List.mem_append.mp hj with h | h
        · exact hstrict j h hlt cd'' hj'
        · rw [List.mem_singleton.mp h] at hj'
          rw [hpk] at hj'
          cases hj'
  · have hpos : 0 < cd.2 := pearsonQ_pos hpk
    show InvLoop T P (vistos ++ [k]) (if melhor cd st.corr = true then ⟨k, some cd⟩ else st)
    rcases hinv with ⟨hst, hall⟩ | ⟨hmem, cd', hcorr, hp, hr, hmax, hstrict⟩
    · have hc0 : st.corr = none := by rw [hst]
      rw [hc0]
      by_cases hm : melhor cd none = true
      · rw [if_pos hm]
        have hrcd : (-1 : ℝ) < rOf (some cd) := (melhor_none_iff cd hpos).mp hm
        refine Or.inr ⟨List.mem_append.mpr (Or.inr (List.mem_singleton.mpr rfl)),
          cd, rfl, hpk, hrcd, ?_, ?_⟩
        · intro j hj cd'' hj'
          rcases List.mem_append.mp hj with h | h
          · exact le_of_lt (lt_of_le_of_lt (hall j h cd'' hj') hrcd)
          · rw [List.mem_singleton.mp h] at hj'
            rw [hpk] at hj'
            rw [Option.some.inj hj']
        · intro j hj hlt cd'' hj'
          rcases List.mem_append.mp hj with h | h
          · exact lt_of_le_of_lt (hall j h cd'' hj') hrcd
          · rw [List.mem_singleton.mp h] at hlt
            exact absurd hlt (lt_irrefl k)
      · rw [if_neg hm]
        refine Or.inl ⟨hst, ?_⟩
        intro j hj cd'' hj'
        rcases List.mem_append.mp hj with h | h
        · exact hall j h cd'' hj'
        · rw [List.mem_singleton.mp h] at hj'
          rw [hpk] at hj'
          rw [← Option.some.inj hj']
          have hnot := (melhor_none_iff cd hpos).not.mp hm
          linarith [not_lt.mp hnot]
    · have hpos' : 0 < cd'.2 := pearsonQ_pos hp
      rw [hcorr]
      by_cases hm : melhor cd (some cd') = true
      · rw [if_pos hm]
        have hrcd : rOf (some cd') < rOf (some cd) := (melhor_some_iff cd cd' hpos hpos').mp hm
        refine Or.inr ⟨List.mem_append.mpr (Or.inr (List.mem_singleton.mpr rfl)),
          cd, rfl, hpk, lt_trans hr hrcd, ?_, ?_⟩
        · intro j hj cd'' hj'
          rcases List.mem_append.mp hj with h | h
          · exact le_of_lt (lt_of_le_of_lt (hmax j h cd'' hj') hrcd)
          · rw [List.mem_singleton.mp h] at hj'
            rw [hpk] at hj'
            rw [Option.some.inj hj']
        · intro j hj hlt cd'' hj'
          rcases List.mem_append.mp hj with h | h
          · exact lt_of_le_of_lt (hmax j h cd'' hj') hrcd
          · rw [List.mem_singleton.mp h] at hlt
            exact absurd hlt (lt_irrefl k)
      · rw [if_neg hm]
        have hle : rOf (some cd) ≤ rOf (some cd') :=
          not_lt.mp ((melhor_some_iff cd cd' hpos hpos').not.mp hm)
        refine Or.inr ⟨List.mem_append.mpr (Or.inl hmem), cd', hcorr, hp, hr, ?_, ?_⟩
        · intro j hj cd'' hj'
          rcases List.mem_append.mp hj with h | h
          · exact hmax j h cd'' hj'
          · rw [List.mem_singleton.mp h] at hj'
            rw [hpk] at hj'
            rw [← Option.some.inj hj']
            exact hle
        · intro j hj hlt cd'' hj'
          rcases List.mem_append.mp hj with h | h
          · exact hstrict j h hlt cd'' hj'
          · rw [List.mem_singleton.mp h] at hj hlt
            have hk : st.lag < k := hgt st.lag hmem
            omega

/-- Helper: folding the loop body over a strictly increasing list of lags
preserves the invariant. -/
theorem foldl_inv (T P : List ℚ) :
    ∀ (ks vistos : List ℕ) (st : LagState),
      InvLoop T P vistos st → (∀ a ∈ vistos, ∀ b ∈ ks, a < b) →
      List.Pairwise (· < ·) ks →
      InvLoop T P (vistos ++ ks) (ks.foldl (passo T P) st)
  | [], vistos, st, hinv, _, _ => by simpa using hinv
  | k :: rest, vistos, st, hinv, hab, hp => by
    rw [List.foldl_cons]
    have h1 : InvLoop T P (vistos ++ [k]) (passo T P st k) :=
      passo_inv T P vistos st k hinv (fun a ha => hab a ha k (List.mem_cons_self k rest))
    have hpc := List.pairwise_cons.mp hp
    have h2 : ∀ a ∈ vistos ++ [k], ∀ b ∈ rest, a < b := by
      intro a ha b hb
      rcases List.mem_append.mp ha with h | h
      · exact hab a h b (List.mem_cons_of_mem k hb)
      · rw [List.mem_singleton.mp h]
        exact hpc.1 b hb
    have h3 := foldl_inv T P rest (vistos ++ [k]) (passo T P st k) h1 h2 hpc.2
    rw [List.append_assoc] at h3
    simpa using h3

/-- Helper: the invariant holds for the final state of the scan over lags
1..14. -/
theorem lead_time_inv (T P : List ℚ) :
    InvLoop T P (List.range' 1 14) (calcular_lead_time_lag T P) := by
  have h := foldl_inv T P (List.range' 1 14) [] ⟨0, none⟩
    (Or.inl ⟨rfl, by intro k hk; cases hk⟩)
    (by intro a ha; cases ha)
    (List.pairwise_lt_range' 1 14)
  simpa using h

/-- Helper: a finite real correlation corresponds to a defined rational
summary. -/
theorem corrReal_eq_some {T P : List ℚ} {lag : ℕ} {r : ℝ} :
    corrReal T P lag = some r ↔
      ∃ cd, pearsonQ T P lag = some cd ∧ r = rOf (some cd) := by
  unfold corrReal rOf
  cases h : pearsonQ T P lag with
  | none => simp
  | some cd => simp [eq_comm]

/-- C6 (confirmed): if no lag in 1..14 yields a finite Pearson correlation —
for instance when a series is constant — the scan returns the sentinel
`lag = 0` with correlation `-1`, raising no error. -/
theorem lead_time_sentinela (T P : List ℚ)
    (h : ∀ lag, lag < 15 → 1 ≤ lag → pearsonQ T P lag = none) :
    calcular_lead_time_lag T P = ⟨0, none⟩ ∧
    rOf (calcular_lead_time_lag T P).corr = -1 := by
  rcases lead_time_inv T P with ⟨hst, _⟩ | ⟨hmem, cd, _, hp, _, _, _⟩
  · refine ⟨hst, ?_⟩
    rw [hst]
    simp [rOf]
  · exfalso
    rw [List.mem_range'] at hmem
    obtain ⟨i, hi, he⟩ := hmem
    have hn := h (calcular_lead_time_lag T P).lag (by omega) (by omega)
    rw [hn] at hp
    cases hp

/-- Helper: the scaled sum of squared deviations of a constant list is zero. -/
theorem ssq_replicate (k : ℕ) (a : ℚ) : ssq (List.replicate k a) = 0 := by
  unfold ssq
  rw [List.map_replicate, List.sum_replicate, List.sum_replicate, List.length_replicate]
  push_cast [nsmul_eq_mul]
  ring

/-- Helper: zipping two constant lists gives a constant list of pairs. -/
theorem zip_replicate_eq (a b : ℚ) : ∀ (n m : ℕ),
    (List.replicate n a).zip (List.replicate m b) = List.replicate (min n m) (a, b)
  | 0, m => by simp
  | n + 1, 0 => by simp
  | n + 1, m + 1 => by
    rw [List.replicate_succ, List.replicate_succ, List.zip_cons_cons,
      zip_replicate_eq a b n m, Nat.succ_min_succ, List.replicate_succ]

/-- Helper: two constant series have no finite Pearson correlation at any lag
(pandas returns `NaN` on a zero standard deviation). -/
theorem pearson_const (n m : ℕ) (a b : ℚ) (lag : ℕ) :
    pearsonQ (List.replicate n a) (List.replicate m b) lag = none := by
  unfold pearsonQ pares
  rw [List.drop_replicate, zip_replicate_eq, List.map_replicate]
  rw [if_pos (Or.inl (ssq_replicate _ a))]

/-- Witness for C6: a constant pair of series has no finite correlation at any
lag and produces the sentinel. -/
theorem lead_time_sentinela_witness :
    calcular_lead_time_lag (List.replicate 16 3) (List.replicate 16 3) = ⟨0, none⟩ ∧
    rOf (calcular_lead_time_lag (List.replicate 16 3) (List.replicate 16 3)).corr = -1 :=
  lead_time_sentinela (List.replicate 16 3) (List.replicate 16 3)
    (fun lag _ _ => pearson_const 16 16 3 3 lag)

/-- Helper: full characterisation of the scan, proved from the loop invariant:
with some finite correlation above `-1` it returns the least maximizing lag,
otherwise the sentinel. -/
theorem lead_time_caracterizacao (T P : List ℚ) :
    ((∃ k, k ∈ List.range' 1 14 ∧ ∃ r, corrReal T P k = some r ∧ (-1 : ℝ) < r) →
      (calcular_lead_time_lag T P).lag ∈ List.range' 1 14 ∧
      (∃ r, corrReal T P (calcular_lead_time_lag T P).lag = some r ∧
        rOf (calcular_lead_time_lag T P).corr = r ∧
        (∀ k ∈ List.range' 1 14, ∀ r', corrReal T P k = some r' → r' ≤ r) ∧
        (∀ k ∈ List.range' 1 14, k < (calcular_lead_time_lag T P).lag →
          ∀ r', corrReal T P k = some r' → r' < r))) ∧
    ((∀ k ∈ List.range' 1 14, ∀ r, corrReal T P k = some r → r ≤ -1) →
      calcular_lead_time_lag T P = ⟨0, none⟩) := by
  constructor
  · rintro ⟨k0, hk0, r0, hc0, hr0⟩
    rcases lead_time_inv T P with ⟨hst, hall⟩ | ⟨hmem, cd, hcorr, hp, hr, hmax, hstrict⟩
    · exfalso
      obtain ⟨cd0, hp0, he0⟩ := corrReal_eq_some.mp hc0
      have hle := hall k0 hk0 cd0 hp0
      rw [← he0] at hle
      linarith
    · refine ⟨hmem, rOf (some cd), ?_, ?_, ?_, ?_⟩
      · exact corrReal_eq_some.mpr ⟨cd, hp, rfl⟩
      · rw [hcorr]
      · intro k hk r' hr'
        obtain ⟨cd', hp', he'⟩ := corrReal_eq_some.mp hr'
        rw [he']
        exact hmax k hk cd' hp'
      · intro k hk hlt r' hr'
        obtain ⟨cd', hp', he'⟩ := corrReal_eq_some.mp hr'
        rw [he']
        exact hstrict k hk hlt cd' hp'
  · intro hall
    rcases lead_time_inv T P with ⟨hst, _⟩ | ⟨hmem, cd, hcorr, hp, hr, _, _⟩
    · exact hst
    · exfalso
      have hle : rOf (some cd) ≤ -1 :=
        hall _ hmem _ (corrReal_eq_some.mpr ⟨cd, hp, rfl⟩)
      linarith

/-- C3 amended: whenever some lag in 1..14 has a finite Pearson correlation
strictly above `-1`, the scan returns the smallest lag attaining the maximal
(signed) correlation, together with that correlation; if instead every finite
correlation is `≤ -1` (in particular all exactly `-1`, or none finite), it
returns the sentinel `lag = 0`, `corr = -1` rather than a maximizing lag. -/
theorem lead_time_argmax (T P : List ℚ) :
    ((∃ k, k ∈ List.range' 1 14 ∧ ∃ r, corrReal T P k = some r ∧ (-1 : ℝ) < r) →
      (calcular_lead_time_lag T P).lag ∈ List.range' 1 14 ∧
      (∃ r, corrReal T P (calcular_lead_time_lag T P).lag = some r ∧
        rOf (calcular_lead_time_lag T P).corr = r ∧
        (∀ k ∈ List.range' 1 14, ∀ r', corrReal T P k = some r' → r' ≤ r) ∧
        (∀ k ∈ List.range' 1 14, k < (calcular_lead_time_lag T P).lag →
          ∀ r', corrReal T P k = some r' → r' < r))) ∧
    ((∀ k ∈ List.range' 1 14, ∀ r, corrReal T P k = some r → r ≤ -1) →
      calcular_lead_time_lag T P = ⟨0, none⟩) :=
  lead_time_caracterizacao T P

/-- Helper: a summary with negative numerator whose square equals the
denominator has correlation exactly `-1`. -/
theorem rDiv_neg_one (c D : ℚ) (hneg : c < 0) (hsq : c ^ 2 = D) :
    (c : ℝ) / Real.sqrt (D : ℝ) = -1 := by
  have hDR : ((D : ℚ) : ℝ) = ((c : ℝ)) ^ 2 := by exact_mod_cast hsq.symm
  have hcR : (c : ℝ) < 0 := by exact_mod_cast hneg
  rw [hDR, Real.sqrt_sq_eq_abs, abs_of_neg hcR, div_neg, div_self (ne_of_lt hcR)]

/-- Helper: a summary with positive numerator whose square equals the
denominator has correlation exactly `1`. -/
theorem rDiv_one (c D : ℚ) (hpos : 0 < c) (hsq : c ^ 2 = D) :
    (c : ℝ) / Real.sqrt (D : ℝ) = 1 := by
  have hDR : ((D : ℚ) : ℝ) = ((c : ℝ)) ^ 2 := by exact_mod_cast hsq.symm
  have hcR : (0 : ℝ) < (c : ℝ) := by exact_mod_cast hpos
  rw [hDR, Real.sqrt_sq_eq_abs, abs_of_pos hcR, div_self (ne_of_gt hcR)]

/-- Concrete correlator input: a geometric series, exactly affine against any
of its own shifts. -/
def serieGeo : List ℚ :=
  [1, 2, 4, 8, 16, 32, 64, 128, 256, 512, 1024, 2048, 4096, 8192, 16384, 32768]

/-- The negated geometric series, written out literally: its Pearson
correlation against `serieGeo` is exactly `-1` at every lag in 1..14. -/
def serieGeoNeg : List ℚ :=
  [-1, -2, -4, -8, -16, -32, -64, -128, -256, -512, -1024, -2048, -4096, -8192,
   -16384, -32768]

/-- Helper: the Pearson summary of the geometric pair at lag 1. -/
theorem pearsonGeoNeg1 :
    pearsonQ serieGeo serieGeoNeg 1 = some (-8590065652, 17180131304 * 4295032826) := by
  have hp : pares serieGeo serieGeoNeg 1 = [(2, -1), (4, -2), (8, -4), (16, -8), (32, -16), (64, -32), (128, -64), (256, -128), (512, -256), (1024, -512), (2048, -1024), (4096, -2048), (8192, -4096), (16384, -8192), (32768, -16384)] := rfl
  have hx : ssq (List.map Prod.fst ([(2, -1), (4, -2), (8, -4), (16, -8), (32, -16), (64, -32), (128, -64), (256, -128), (512, -256), (1024, -512), (2048, -1024), (4096, -2048), (8192, -4096), (16384, -8192), (32768, -16384)] : List (ℚ × ℚ))) = 17180131304 := by
    norm_num [ssq]
  have hy : ssq (List.map Prod.snd ([(2, -1), (4, -2), (8, -4), (16, -8), (32, -16), (64, -32), (128, -64), (256, -128), (512, -256), (1024, -512), (2048, -1024), (4096, -2048), (8192, -4096), (16384, -8192), (32768, -16384)] : List (ℚ × ℚ))) = 4295032826 := by
    norm_num [ssq]
  have hc : sCross ([(2, -1), (4, -2), (8, -4), (16, -8), (32, -16), (64, -32), (128, -64), (256, -128), (512, -256), (1024, -512), (2048, -1024), (4096, -2048), (8192, -4096), (16384, -8192), (32768, -16384)] : List (ℚ × ℚ)) = -8590065652 := by
    norm_num [sCross]
  unfold pearsonQ
  rw [hp, hx, hy, hc, if_neg (by norm_num)]

/-- Helper: the Pearson summary of the geometric pair at lag 2. -/
theorem pearsonGeoNeg2 :
    pearsonQ serieGeo serieGeoNeg 2 = some (-3937184404, 15748737616 * 984296101) := by
  have hp : pares serieGeo serieGeoNeg 2 = [(4, -1), (8, -2), (16, -4), (32, -8), (64, -16), (128, -32), (256, -64), (512, -128), (1024, -256), (2048, -512), (4096, -1024), (8192, -2048), (16384, -4096), (32768, -8192)] := rfl
  have hx : ssq (List.map Prod.fst ([(4, -1), (8, -2), (16, -4), (32, -8), (64, -16), (128, -32), (256, -64), (512, -128), (1024, -256), (2048, -512), (4096, -1024), (8192, -2048), (16384, -4096), (32768, -8192)] : List (ℚ × ℚ))) = 15748737616 := by
    norm_num [ssq]
  have hy : ssq (List.map Prod.snd ([(4, -1), (8, -2), (16, -4), (32, -8), (64, -16), (128, -32), (256, -64), (512, -128), (1024, -256), (2048, -512), (4096, -1024), (8192, -2048), (16384, -4096), (32768, -8192)] : List (ℚ × ℚ))) = 984296101 := by
    norm_num [ssq]
  have hc : sCross ([(4, -1), (8, -2), (16, -4), (32, -8), (64, -16), (128, -32), (256, -64), (512, -128), (1024, -256), (2048, -512), (4096, -1024), (8192, -2048), (16384, -4096), (32768, -8192)] : List (ℚ × ℚ)) = -3937184404 := by
    norm_num [sCross]
  unfold pearsonQ
  rw [hp, hx, hy, hc, if_neg (by norm_num)]

/-- Helper: the Pearson summary of the geometric pair at lag 3. -/
theorem pearsonGeoNeg3 :
    pearsonQ serieGeo serieGeoNeg 3 = some (-1789700736, 14317605888 * 223712592) := by
  have hp : pares serieGeo serieGeoNeg 3 = [(8, -1), (16, -2), (32, -4), (64, -8), (128, -16), (256, -32), (512, -64), (1024, -128), (2048, -256), (4096, -512), (8192, -1024), (16384, -2048), (32768, -4096)] := rfl
  have hx : ssq (List.map Prod.fst ([(8, -1), (16, -2), (32, -4), (64, -8), (128, -16), (256, -32), (512, -64), (1024, -128), (2048, -256), (4096, -512), (8192, -1024), (16384, -2048), (32768, -4096)] : List (ℚ × ℚ))) = 14317605888 := by
    norm_num [ssq]
  have hy : ssq (List.map Prod.snd ([(8, -1), (16, -2), (32, -4), (64, -8), (128, -16), (256, -32), (512, -64), (1024, -128), (2048, -256), (4096, -512), (8192, -1024), (16384, -2048), (32768, -4096)] : List (ℚ × ℚ))) = 223712592 := by
    norm_num [ssq]
  have hc : sCross ([(8, -1), (16, -2), (32, -4), (64, -8), (128, -16), (256, -32), (512, -64), (1024, -128), (2048, -256), (4096, -512), (8192, -1024), (16384, -2048), (32768, -4096)] : List (ℚ × ℚ)) = -1789700736 := by
    norm_num [sCross]
  unfold pearsonQ
  rw [hp, hx, hy, hc, if_neg (by norm_num)]

/-- Helper: the Pearson summary of the geometric pair at lag 4. -/
theorem pearsonGeoNeg4 :
    pearsonQ serieGeo serieGeoNeg 4 = some (-805437360, 12886997760 * 50339835) := by
  have hp : pares serieGeo serieGeoNeg 4 = [(16, -1), (32, -2), (64, -4), (128, -8), (256, -16), (512, -32), (1024, -64), (2048, -128), (4096, -256), (8192, -512), (16384, -1024), (32768, -2048)] := rfl
  have hx : ssq (List.map Prod.fst ([(16, -1), (32, -2), (64, -4), (128, -8), (256, -16), (512, -32), (1024, -64), (2048, -128), (4096, -256), (8192, -512), (16384, -1024), (32768, -2048)] : List (ℚ × ℚ))) = 12886997760 := by
    norm_num [ssq]
  have hy : ssq (List.map Prod.snd ([(16, -1), (32, -2), (64, -4), (128, -8), (256, -16), (512, -32), (1024, -64), (2048, -128), (4096, -256), (8192, -512), (16384, -1024), (32768, -2048)] : List (ℚ × ℚ))) = 50339835 := by
    norm_num [ssq]
  have hc : sCross ([(16, -1), (32, -2), (64, -4), (128, -8), (256, -16), (512, -32), (1024, -64), (2048, -128), (4096, -256), (8192, -512), (16384, -1024), (32768, -2048)] : List (ℚ × ℚ)) = -805437360 := by
    norm_num [sCross]
  unfold pearsonQ
  rw [hp, hx, hy, hc, if_neg (by norm_num)]

/-- Helper: the Pearson summary of the geometric pair at lag 5. -/
theorem pearsonGeoNeg5 :
    pearsonQ serieGeo serieGeoNeg 5 = some (-358044864, 11457435648 * 11188902) := by
  have hp : pares serieGeo serieGeoNeg 5 = [(32, -1), (64, -2), (128, -4), (256, -8), (512, -16), (1024, -32), (2048, -64), (4096, -128), (8192, -256), (16384, -512), (32768, -1024)] := rfl
  have hx : ssq (List.map Prod.fst ([(32, -1), (64, -2), (128, -4), (256, -8), (512, -16), (1024, -32), (2048, -64), (4096, -128), (8192, -256), (16384, -512), (32768, -1024)] : List (ℚ × ℚ))) = 11457435648 := by
    norm_num [ssq]
  have hy : ssq (List.map Prod.snd ([(32, -1), (64, -2), (128, -4), (256, -8), (512, -16), (1024, -32), (2048, -64), (4096, -128), (8192, -256), (16384, -512), (32768, -1024)] : List (ℚ × ℚ))) = 11188902 := by
    norm_num [ssq]
  have hc : sCross ([(32, -1), (64, -2), (128, -4), (256, -8), (512, -16), (1024, -32), (2048, -64), (4096, -128), (8192, -256), (16384, -512), (32768, -1024)] : List (ℚ × ℚ)) = -358044864 := by
    norm_num [sCross]
  unfold pearsonQ
  rw [hp, hx, hy, hc, if_neg (by norm_num)]

/-- Helper: the Pearson summary of the geometric pair at lag 6. -/
theorem pearsonGeoNeg6 :
    pearsonQ serieGeo serieGeoNeg 6 = some (-156718144, 10029961216 * 2448721) := by
  have hp : pares serieGeo serieGeoNeg 6 = [(64, -1), (128, -2), (256, -4), (512, -8), (1024, -16), (2048, -32), (4096, -64), (8192, -128), (16384, -256), (32768, -512)] := rfl
  have hx : ssq (List.map Prod.fst ([(64, -1), (128, -2), (256, -4), (512, -8), (1024, -16), (2048, -32), (4096, -64), (8192, -128), (16384, -256), (32768, -512)] : List (ℚ × ℚ))) = 10029961216 := by
    norm_num [ssq]
  have hy : ssq (List.map Prod.snd ([(64, -1), (128, -2), (256, -4), (512, -8), (1024, -16), (2048, -32), (4096, -64), (8192, -128), (16384, -256), (32768, -512)] : List (ℚ × ℚ))) = 2448721 := by
    norm_num [ssq]
  have hc : sCross ([(64, -1), (128, -2), (256, -4), (512, -8), (1024, -16), (2048, -32), (4096, -64), (8192, -128), (16384, -256), (32768, -512)] : List (ℚ × ℚ)) = -156718144 := by
    norm_num [sCross]
  unfold pearsonQ
  rw [hp, hx, hy, hc, if_neg (by norm_num)]

/-- Helper: the Pearson summary of the geometric pair at lag 7. -/
theorem pearsonGeoNeg7 :
    pearsonQ serieGeo serieGeoNeg 7 = some (-67239424, 8606646272 * 525308) := by
  have hp : pares serieGeo serieGeoNeg 7 = [(128, -1), (256, -2), (512, -4), (1024, -8), (2048, -16), (4096, -32), (8192, -64), (16384, -128), (32768, -256)] := rfl
  have hx : ssq (List.map Prod.fst ([(128, -1), (256, -2), (512, -4), (1024, -8), (2048, -16), (4096, -32), (8192, -64), (16384, -128), (32768, -256)] : List (ℚ × ℚ))) = 8606646272 := by
    norm_num [ssq]
  have hy : ssq (List.map Prod.snd ([(128, -1), (256, -2), (512, -4), (1024, -8), (2048, -16), (4096, -32), (8192, -64), (16384, -128), (32768, -256)] : List (ℚ × ℚ))) = 525308 := by
    norm_num [ssq]
  have hc : sCross ([(128, -1), (256, -2), (512, -4), (1024, -8), (2048, -16), (4096, -32), (8192, -64), (16384, -128), (32768, -256)] : List (ℚ × ℚ)) = -67239424 := by
    norm_num [sCross]
  unfold pearsonQ
  rw [hp, hx, hy, hc, if_neg (by norm_num)]

/-- Helper: the Pearson summary of the geometric pair at lag 8. -/
theorem pearsonGeoNeg8 :
    pearsonQ serieGeo serieGeoNeg 8 = some (-28092160, 7191592960 * 109735) := by
  have hp : pares serieGeo serieGeoNeg 8 = [(256, -1), (512, -2), (1024, -4), (2048, -8), (4096, -16), (8192, -32), (16384, -64), (32768, -128)] := rfl
  have hx : ssq (List.map Prod.fst ([(256, -1), (512, -2), (1024, -4), (2048, -8), (4096, -16), (8192, -32), (16384, -64), (32768, -128)] : List (ℚ × ℚ))) = 7191592960 := by
    norm_num [ssq]
  have hy : ssq (List.map Prod.snd ([(256, -1), (512, -2), (1024, -4), (2048, -8), (4096, -16), (8192, -32), (16384, -64), (32768, -128)] : List (ℚ × ℚ))) = 109735 := by
    norm_num [ssq]
  have hc : sCross ([(256, -1), (512, -2), (1024, -4), (2048, -8), (4096, -16), (8192, -32), (16384, -64), (32768, -128)] : List (ℚ × ℚ)) = -28092160 := by
    norm_num [sCross]
  unfold pearsonQ
  rw [hp, hx, hy, hc, if_neg (by norm_num)]

/-- Helper: the Pearson summary of the geometric pair at lag 9. -/
theorem pearsonGeoNeg9 :
    pearsonQ serieGeo serieGeoNeg 9 = some (-11314176, 5792858112 * 22098) := by
  have hp : pares serieGeo serieGeoNeg 9 = [(512, -1), (1024, -2), (2048, -4), (4096, -8), (8192, -16), (16384, -32), (32768, -64)] := rfl
  have hx : ssq (List.map Prod.fst ([(512, -1), (1024, -2), (2048, -4), (4096, -8), (8192, -16), (16384, -32), (32768, -64)] : List (ℚ × ℚ))) = 5792858112 := by
    norm_num [ssq]
  have hy : ssq (List.map Prod.snd ([(512, -1), (1024, -2), (2048, -4), (4096, -8), (8192, -16), (16384, -32), (32768, -64)] : List (ℚ × ℚ))) = 22098 := by
    norm_num [ssq]
  have hc : sCross ([(512, -1), (1024, -2), (2048, -4), (4096, -8), (8192, -16), (16384, -32), (32768, -64)] : List (ℚ × ℚ)) = -11314176 := by
    norm_num [sCross]
  unfold pearsonQ
  rw [hp, hx, hy, hc, if_neg (by norm_num)]

/-- Helper: the Pearson summary of the geometric pair at lag 10. -/
theorem pearsonGeoNeg10 :
    pearsonQ serieGeo serieGeoNeg 10 = some (-4322304, 4426039296 * 4221) := by
  have hp : pares serieGeo serieGeoNeg 10 = [(1024, -1), (2048, -2), (4096, -4), (8192, -8), (16384, -16), (32768, -32)] := rfl
  have hx : ssq (List.map Prod.fst ([(1024, -1), (2048, -2), (4096, -4), (8192, -8), (16384, -16), (32768, -32)] : List (ℚ × ℚ))) = 4426039296 := by
    norm_num [ssq]
  have hy : ssq (List.map Prod.snd ([(1024, -1), (2048, -2), (4096, -4), (8192, -8), (16384, -16), (32768, -32)] : List (ℚ × ℚ))) = 4221 := by
    norm_num [ssq]
  have hc : sCross ([(1024, -1), (2048, -2), (4096, -4), (8192, -8), (16384, -16), (32768, -32)] : List (ℚ × ℚ)) = -4322304 := by
    norm_num [sCross]
  unfold pearsonQ
  rw [hp, hx, hy, hc, if_neg (by norm_num)]

/-- Helper: the Pearson summary of the geometric pair at lag 11. -/
theorem pearsonGeoNeg11 :
    pearsonQ serieGeo serieGeoNeg 11 = some (-1523712, 3120562176 * 744) := by
  have hp : pares serieGeo serieGeoNeg 11 = [(2048, -1), (4096, -2), (8192, -4), (16384, -8), (32768, -16)] := rfl
  have hx : ssq (List.map Prod.fst ([(2048, -1), (4096, -2), (8192, -4), (16384, -8), (32768, -16)] : List (ℚ × ℚ))) = 3120562176 := by
    norm_num [ssq]
  have hy : ssq (List.map Prod.snd ([(2048, -1), (4096, -2), (8192, -4), (16384, -8), (32768, -16)] : List (ℚ × ℚ))) = 744 := by
    norm_num [ssq]
  have hc : sCross ([(2048, -1), (4096, -2), (8192, -4), (16384, -8), (32768, -16)] : List (ℚ × ℚ)) = -1523712 := by
    norm_num [sCross]
  unfold pearsonQ
  rw [hp, hx, hy, hc, if_neg (by norm_num)]

/-- Helper: the Pearson summary of the geometric pair at lag 12. -/
theorem pearsonGeoNeg12 :
    pearsonQ serieGeo serieGeoNeg 12 = some (-471040, 1929379840 * 115) := by
  have hp : pares serieGeo serieGeoNeg 12 = [(4096, -1), (8192, -2), (16384, -4), (32768, -8)] := rfl
  have hx : ssq (List.map Prod.fst ([(4096, -1), (8192, -2), (16384, -4), (32768, -8)] : List (ℚ × ℚ))) = 1929379840 := by
    norm_num [ssq]
  have hy : ssq (List.map Prod.snd ([(4096, -1), (8192, -2), (16384, -4), (32768, -8)] : List (ℚ × ℚ))) = 115 := by
    norm_num [ssq]
  have hc : sCross ([(4096, -1), (8192, -2), (16384, -4), (32768, -8)] : List (ℚ × ℚ)) = -471040 := by
    norm_num [sCross]
  unfold pearsonQ
  rw [hp, hx, hy, hc, if_neg (by norm_num)]

/-- Helper: the Pearson summary of the geometric pair at lag 13. -/
theorem pearsonGeoNeg13 :
    pearsonQ serieGeo serieGeoNeg 13 = some (-114688, 939524096 * 14) := by
  have hp : pares serieGeo serieGeoNeg 13 = [(8192, -1), (16384, -2), (32768, -4)] := rfl
  have hx : ssq (List.map Prod.fst ([(8192, -1), (16384, -2), (32768, -4)] : List (ℚ × ℚ))) = 939524096 := by
    norm_num [ssq]
  have hy : ssq (List.map Prod.snd ([(8192, -1), (16384, -2), (32768, -4)] : List (ℚ × ℚ))) = 14 := by
    norm_num [ssq]
  have hc : sCross ([(8192, -1), (16384, -2), (32768, -4)] : List (ℚ × ℚ)) = -114688 := by
    norm_num [sCross]
  unfold pearsonQ
  rw [hp, hx, hy, hc, if_neg (by norm_num)]

/-- Helper: the Pearson summary of the geometric pair at lag 14. -/
theorem pearsonGeoNeg14 :
    pearsonQ serieGeo serieGeoNeg 14 = some (-16384, 268435456 * 1) := by
  have hp : pares serieGeo serieGeoNeg 14 = [(16384, -1), (32768, -2)] := rfl
  have hx : ssq (List.map Prod.fst ([(16384, -1), (32768, -2)] : List (ℚ × ℚ))) = 268435456 := by
    norm_num [ssq]
  have hy : ssq (List.map Prod.snd ([(16384, -1), (32768, -2)] : List (ℚ × ℚ))) = 1 := by
    norm_num [ssq]
  have hc : sCross ([(16384, -1), (32768, -2)] : List (ℚ × ℚ)) = -16384 := by
    norm_num [sCross]
  unfold pearsonQ
  rw [hp, hx, hy, hc, if_neg (by norm_num)]

/-- Helper: the Pearson summary of the geometric series against itself at
lag 1. -/
theorem pearsonGeoSelf1 :
    pearsonQ serieGeo serieGeo 1 = some (8590065652, 17180131304 * 4295032826) := by
  have hp : pares serieGeo serieGeo 1 = [(2, 1), (4, 2), (8, 4), (16, 8), (32, 16), (64, 32), (128, 64), (256, 128), (512, 256), (1024, 512), (2048, 1024), (4096, 2048), (8192, 4096), (16384, 8192), (32768, 16384)] := rfl
  have hx : ssq (List.map Prod.fst ([(2, 1), (4, 2), (8, 4), (16, 8), (32, 16), (64, 32), (128, 64), (256, 128), (512, 256), (1024, 512), (2048, 1024), (4096, 2048), (8192, 4096), (16384, 8192), (32768, 16384)] : List (ℚ × ℚ))) = 17180131304 := by
    norm_num [ssq]
  have hy : ssq (List.map Prod.snd ([(2, 1), (4, 2), (8, 4), (16, 8), (32, 16), (64, 32), (128, 64), (256, 128), (512, 256), (1024, 512), (2048, 1024), (4096, 2048), (8192, 4096), (16384, 8192), (32768, 16384)] : List (ℚ × ℚ))) = 4295032826 := by
    norm_num [ssq]
  have hc : sCross ([(2, 1), (4, 2), (8, 4), (16, 8), (32, 16), (64, 32), (128, 64), (256, 128), (512, 256), (1024, 512), (2048, 1024), (4096, 2048), (8192, 4096), (16384, 8192), (32768, 16384)] : List (ℚ × ℚ)) = 8590065652 := by
    norm_num [sCross]
  unfold pearsonQ
  rw [hp, hx, hy, hc, if_neg (by norm_num)]

/-- C3 counterexample: against `serieGeoNeg`, every lag in 1..14 has Pearson
correlation exactly `-1`, so a maximal (signed) correlation exists and is first
attained at lag 1; yet the strict float comparison against the initial
`best_corr = -1` never fires and the code returns lag `0` — not the lag
maximizing the correlation. -/
theorem lead_time_nao_maximiza :
    calcular_lead_time_lag serieGeo serieGeoNeg = ⟨0, none⟩ ∧
    ∀ lag, lag < 15 → 1 ≤ lag → corrReal serieGeo serieGeoNeg lag = some (-1) := by
  have hCorr : ∀ lag, lag < 15 → 1 ≤ lag → corrReal serieGeo serieGeoNeg lag = some (-1) := by
    intro lag h1 h2
    interval_cases lag
    · unfold corrReal
      rw [pearsonGeoNeg1, Option.map_some']
      exact congrArg some (rDiv_neg_one _ _ (by norm_num) (by norm_num))
    · unfold corrReal
      rw [pearsonGeoNeg2, Option.map_some']
      exact congrArg some (rDiv_neg_one _ _ (by norm_num) (by norm_num))
    · unfold corrReal
      rw [pearsonGeoNeg3, Option.map_some']
      exact congrArg some (rDiv_neg_one _ _ (by norm_num) (by norm_num))
    · unfold corrReal
      rw [pearsonGeoNeg4, Option.map_some']
      exact congrArg some (rDiv_neg_one _ _ (by norm_num) (by norm_num))
    · unfold corrReal
      rw [pearsonGeoNeg5, Option.map_some']
      exact congrArg some (rDiv_neg_one _ _ (by norm_num) (by norm_num))
    · unfold corrReal
      rw [pearsonGeoNeg6, Option.map_some']
      exact congrArg some (rDiv_neg_one _ _ (by norm_num) (by norm_num))
    · unfold corrReal
      rw [pearsonGeoNeg7, Option.map_some']
      exact congrArg some (rDiv_neg_one _ _ (by norm_num) (by norm_num))
    · unfold corrReal
      rw [pearsonGeoNeg8, Option.map_some']
      exact congrArg some (rDiv_neg_one _ _ (by norm_num) (by norm_num))
    · unfold corrReal
      rw [pearsonGeoNeg9, Option.map_some']
      exact congrArg some (rDiv_neg_one _ _ (by norm_num) (by norm_num))
    · unfold corrReal
      rw [pearsonGeoNeg10, Option.map_some']
      exact congrArg some (rDiv_neg_one _ _ (by norm_num) (by norm_num))
    · unfold corrReal
      rw [pearsonGeoNeg11, Option.map_some']
      exact congrArg some (rDiv_neg_one _ _ (by norm_num) (by norm_num))
    · unfold corrReal
      rw [pearsonGeoNeg12, Option.map_some']
      exact congrArg some (rDiv_neg_one _ _ (by norm_num) (by norm_num))
    · unfold corrReal
      rw [pearsonGeoNeg13, Option.map_some']
      exact congrArg some (rDiv_neg_one _ _ (by norm_num) (by norm_num))
    · unfold corrReal
      rw [pearsonGeoNeg14, Option.map_some']
      exact congrArg some (rDiv_neg_one _ _ (by norm_num) (by norm_num))
  refine ⟨?_, hCorr⟩
  apply (lead_time_caracterizacao serieGeo serieGeoNeg).2
  intro k hk r hr
  rw [List.mem_range'] at hk
  obtain ⟨i, hi, he⟩ := hk
  rw [hCorr k (by omega) (by omega)] at hr
  exact le_of_eq (Option.some.inj hr).symm

/-- Witness for the amended C3: on the geometric series against itself the
scan returns a maximizing lag with its correlation; on a constant pair it
returns the sentinel. -/
theorem lead_time_argmax_witness :
    ((calcular_lead_time_lag serieGeo serieGeo).lag ∈ List.range' 1 14 ∧
      (∃ r, corrReal serieGeo serieGeo (calcular_lead_time_lag serieGeo serieGeo).lag =
          some r ∧
        rOf (calcular_lead_time_lag serieGeo serieGeo).corr = r ∧
        (∀ k ∈ List.range' 1 14, ∀ r', corrReal serieGeo serieGeo k = some r' → r' ≤ r) ∧
        (∀ k ∈ List.range' 1 14, k < (calcular_lead_time_lag serieGeo serieGeo).lag →
          ∀ r', corrReal serieGeo serieGeo k = some r' → r' < r))) ∧
    calcular_lead_time_lag (List.replicate 16 5) (List.replicate 16 5) = ⟨0, none⟩ := by
  constructor
  · apply (lead_time_argmax serieGeo serieGeo).1
    refine ⟨1, by decide, 1, ?_, by norm_num⟩
    unfold corrReal
    rw [pearsonGeoSelf1, Option.map_some']
    exact congrArg some (rDiv_one _ _ (by norm_num) (by norm_num))
  · apply (lead_time_argmax (List.replicate 16 5) (List.replicate 16 5)).2
    intro k hk r hr
    unfold corrReal at hr
    rw [pearson_const 16 16 5 5 k] at hr
    simp at hr
